import Mathlib

/-
Verification of the HTTP-Game-handler chess server core against its
specification.  The definitions below are shallow embeddings of the Python
sources under src/python/: the server-state controller (utils/ServerState.py),
the ELO settlement arithmetic (database/game_operations.py), the session
store (utils/SessionManager.py), the engine pool's task submission and
scaling logic (utils/EngineHandler.py), the matchmaking queue
(game/matchmaking.py), the game registry and its WebSocket handlers
(server.py), and the cleanup sweeper (game/instance_handler.py).
Machine times are modelled as integers, floating-point rating arithmetic as
real arithmetic, Python dicts keyed by strings as association lists, and the
in-place mutation of the shared state as explicit state-passing functions.
-/

namespace ChessServer

/-! ### Server-state controller (utils/ServerState.py) -/

/-- State of the `ServerState` latch object: the `_shutdown_event` and
`_error_event` flags plus the `_error_message` slot. -/
structure SState where
  shutdown_flag : Bool
  error_flag : Bool
  error_message : Option String
deriving DecidableEq

/-- The freshly constructed `ServerState`: both events unset, no message. -/
def SState.init : SState := ⟨false, false, none⟩

/-- `ServerState.signal_shutdown`: sets the shutdown event. -/
def signalShutdown (s : SState) : SState :=
  { s with shutdown_flag := true }

/-- `ServerState.signal_error`: stores the message (unconditionally) and sets
both the error event and the shutdown event. -/
def signalError (msg : String) (s : SState) : SState :=
  { s with error_message := some msg, error_flag := true, shutdown_flag := true }

/-- `ServerState.get_error_message`: returns the stored message slot. -/
def getErrorMessage (s : SState) : Option String :=
  s.error_message

/-- A sequence of `signal_error` calls, applied in order. -/
def applySignalErrors (s : SState) (msgs : List String) : SState :=
  msgs.foldl (fun st m => signalError m st) s

/-! ### ELO settlement (database/game_operations.py) -/

/-- The expected score computed inside `elo_delta`:
`expected = 1 / (1 + 10 ** ((loser_elo - winner_elo) / 400))`. -/
noncomputable def expectedScore (winner_elo loser_elo : ℤ) : ℝ :=
  1 / (1 + (10 : ℝ) ^ ((((loser_elo : ℝ)) - ((winner_elo : ℝ))) / 400))

/-- Python's `int()` applied to a real number: truncation toward zero. -/
noncomputable def pyInt (x : ℝ) : ℤ :=
  if 0 ≤ x then Int.floor x else Int.ceil x

/-- `elo_delta(winner_elo, loser_elo, score, k)`:
`int(k * (score - expected))`. -/
noncomputable def elo_delta (winner_elo loser_elo : ℤ) (score k : ℝ) : ℤ :=
  pyInt (k * (score - expectedScore winner_elo loser_elo))

/-! ### Session store (utils/SessionManager.py) -/

/-- One row of the `sessions` table. -/
structure SessRow where
  user_id : Nat
  username : String
  ip : String
  created_at : Int
  last_active : Int
deriving DecidableEq

/-- The record `_get_session_impl` returns on a non-expired hit. -/
structure SessRec where
  user_id : Nat
  username : String
  ip : String
  last_active : Int
deriving DecidableEq

/-- State of a `SessionManager`: the persistent `sessions` table, the
`lru_cache` memo in front of `_get_session_impl`, and the configured
`session_timeout`. -/
structure SMState where
  store : List (String × SessRow)
  cache : List (String × Option SessRec)
  timeout : Int
deriving DecidableEq

/-- `delete_session`: removes the row and, iff a row was deleted, clears the
caches.  Returns whether a row was deleted together with the new state. -/
def deleteSessionSM (sid : String) (st : SMState) : Bool × SMState :=
  let found := st.store.any (fun p => p.1 == sid)
  (found,
   { st with
     store := st.store.filter (fun p => !(p.1 == sid)),
     cache := if found then [] else st.cache })

/-- `_get_session_impl`: looks the row up in the table; on a miss returns
`none`; on an expired hit (`now - last_active > session_timeout`) deletes the
row and returns `none`; otherwise returns the session record. -/
def getSessionImpl (now : Int) (sid : String) (st : SMState) :
    Option SessRec × SMState :=
  match st.store.lookup sid with
  | none => (none, st)
  | some row =>
    if now - row.last_active > st.timeout then
      (none, (deleteSessionSM sid st).2)
    else
      (some ⟨row.user_id, row.username, row.ip, row.last_active⟩, st)

/-- `get_session`, i.e. `lru_cache(maxsize=...)(self._get_session_impl)`:
returns the memoized result when the cache holds an entry for `sid`,
otherwise runs the implementation and memoizes its result. -/
def getSessionCached (now : Int) (sid : String) (st : SMState) :
    Option SessRec × SMState :=
  match st.cache.lookup sid with
  | some res => (res, st)
  | none =>
    let r := getSessionImpl now sid st
    (r.1, { r.2 with cache := (sid, r.1) :: r.2.cache })

/-- `create_session`: inserts a fresh row with
`created_at = last_active = now` and clears the caches. -/
def createSessionSM (sid : String) (uid : Nat) (uname ip : String) (now : Int)
    (st : SMState) : SMState :=
  { st with
    store := (sid, ⟨uid, uname, ip, now, now⟩) :: st.store,
    cache := [] }

/-! ### Engine pool (utils/EngineHandler.py) -/

/-- The scan `min(iterable, key=f)` performs after its first element:
keeps the current best and replaces it only on a strictly smaller key, so
the first minimum encountered wins. -/
def pyFold {α : Type} (f : α → Nat) (acc : α) (xs : List α) : α :=
  xs.foldl (fun best y => if f y < f best then y else best) acc

/-- Python's `min(iterable, key=f)` over a possibly empty iterable. -/
def pyMinBy {α : Type} (f : α → Nat) : List α → Option α
  | [] => none
  | x :: xs => some (pyFold f x xs)

/-- The instance-selection step of `submit_task`: the pool's instance map in
iteration order (insertion order, i.e. ascending instance id), each instance
summarized as `(instance id, task_queue.qsize())`.  Returns the id of the
instance the task is enqueued on, or `none` when the pool is empty. -/
def submitTaskTarget (insts : List (Nat × Nat)) : Option Nat :=
  (pyMinBy (fun p => p.2) insts).map (fun p => p.1)

/-- Counting abstraction of the pool operations that add or remove
instances while `should_shutdown()` is false, parameterized by
`min_instances` and `max_instances`; a step relates the number of live
instances before and after.  `spawn_ok`, `spawn_blocked` and `spawn_failed`
are `_spawn_instance`, which re-checks the `max_instances` bound under the
pool lock and may fail; `scale_down` is `auto_scale`'s idle branch, guarded
by `count > min_instances`.  The worker's own `_close_instance` call is out
of scope here: its pipe guard tests always-truthy `Popen` file objects and
so never raises, every task failure is swallowed with the instance
retained, and the close after the worker loop runs only once
`should_shutdown()` is true — as does the pool-wide `shutdown()`. -/
inductive PoolStep (minI maxI : Nat) : Nat → Nat → Prop where
  | spawn_ok : ∀ n, n < maxI → PoolStep minI maxI n (n + 1)
  | spawn_blocked : ∀ n, maxI ≤ n → PoolStep minI maxI n n
  | spawn_failed : ∀ n, PoolStep minI maxI n n
  | scale_down : ∀ n, minI < n → PoolStep minI maxI n (n - 1)

/-! ### Game records (game/matchmaking.py and server.py) -/

/-- A player slot of a game record (`game["player1"]` / `game["player2"]`);
the WebSocket handle is modelled as an opaque numeric token. -/
structure PlayerRec where
  user_id : Nat
  username : String
  session_id : String
  color : String
  websocket : Option Nat
  elo : Int
deriving DecidableEq

/-- A game record as stored in `ACTIVE_GAMES`. -/
structure Game where
  player1 : PlayerRec
  player2 : PlayerRec
  fen : String
  moves : List String
  current_turn : String
  legal_moves : List String
  status : String
  winner : Option String
  created_at : Int
  last_move_at : Int
deriving DecidableEq

/-- The standard starting position used by `_initialize_game_state`. -/
def startFen : String :=
  "rnbqkbnr/pppppppp/8/8/8/8/PPPPPPPP/RNBQKBNR w KQkq - 0 1"

/-- A matchmaking candidate (the dict put on `MATCHMAKING_QUEUE` by
`handle_search`). -/
structure Candidate where
  user_id : Nat
  username : String
  session_id : String
deriving DecidableEq

/-- `_initialize_game_state`: the freshly created game record. -/
def initGameState (p1 p2 : Candidate) (elo1 elo2 : Int) (c1 c2 : String)
    (now : Int) : Game :=
  { player1 :=
      { user_id := p1.user_id, username := p1.username,
        session_id := p1.session_id, color := c1, websocket := none,
        elo := elo1 },
    player2 :=
      { user_id := p2.user_id, username := p2.username,
        session_id := p2.session_id, color := c2, websocket := none,
        elo := elo2 },
    fen := startFen, moves := [], current_turn := "white",
    legal_moves := [], status := "ongoing", winner := none,
    created_at := now, last_move_at := now }

/-- `_initialize_legal_moves`' effect on the stored record when the engine
returned a `possible_moves` list. -/
def setLegalMoves (g : Game) (lm : List String) : Game :=
  { g with legal_moves := lm }

/-- `on_ws_connected`'s registration of a socket into the player slot whose
`session_id` matches. -/
def attachWs (self : Nat) (sid : String) (g : Game) : Game :=
  if g.player1.session_id = sid then
    { g with player1 := { g.player1 with websocket := some self } }
  else
    { g with player2 := { g.player2 with websocket := some self } }

/-! ### WebSocket move handling (server.py, handle_ws_move) -/

/-- The JSON reply of the chess engine, with the optional fields read by
`handle_ws_move` (`response.get(...)` / `response["fen"]`). -/
structure EngineResponse where
  message : Option String
  fen : Option String
  possible_moves : Option (List String)
  winner : Option String
  error : Option String
deriving DecidableEq

/-- What `handle_ws_move` does besides updating the record: reply with a
typed error, broadcast a `move_update`, or enter `handle_game_end`. -/
inductive MoveOutcome where
  | errorReply (msg : String)
  | update
  | gameEnd (winner : String)
deriving DecidableEq

/-- The color `handle_ws_move` attributes to the submitting session:
`player1`'s color when `player1.session_id` matches, else `player2`'s. -/
def playerColorOf (g : Game) (sid : String) : String :=
  if g.player1.session_id = sid then g.player1.color else g.player2.color

/-- `handle_ws_move` on game `g` for session `sid`, submitted move `mv`,
with the engine's reply `resp` in hand at time `now`.  Mirrors the source:
turn check, empty-move check, then on `"valid"` overwrite `fen` (a missing
`"fen"` key raises and leaves the record untouched), append the move,
replace `legal_moves` (defaulting to `[]`), flip `current_turn`, stamp
`last_move_at`, and finally branch on a truthy `winner`. -/
def handleWsMove (g : Game) (sid mv : String) (resp : EngineResponse)
    (now : Int) : Game × MoveOutcome :=
  if g.current_turn ≠ playerColorOf g sid then
    (g, .errorReply "Not your turn")
  else if mv = "" then
    (g, .errorReply "Invalid move format")
  else if resp.message = some "valid" then
    match resp.fen with
    | none => (g, .errorReply "Move processing error")
    | some f =>
      let g' :=
        { g with
          fen := f,
          moves := g.moves ++ [mv],
          legal_moves := resp.possible_moves.getD [],
          current_turn := if g.current_turn = "white" then "black" else "white",
          last_move_at := now }
      match resp.winner with
      | some w => if w = "" then (g', .update) else (g', .gameEnd w)
      | none => (g', .update)
  else
    (g, .errorReply (resp.error.getD "Invalid move"))

/-! ### WebSocket close handling (server.py, on_ws_closed) -/

/-- Messages a WebSocket handler can push to a peer. -/
inductive WsOut where
  | opponentDisconnected
  | moveUpdate (fen next_turn last_move : String)
  | gameOver (winner reason : String)
  | errorMsg (m : String)
deriving DecidableEq

/-- `on_ws_closed` on the game record of the closing socket `self`: when one
of the two player slots holds this socket, the matching slot(s) are cleared;
the handler only logs, so the list of messages it sends is empty on every
path. -/
def onWsClosed (self : Nat) (g : Game) : Game × List WsOut :=
  if g.player1.websocket = some self ∨ g.player2.websocket = some self then
    ({ g with
       player1 :=
         if g.player1.websocket = some self then
           { g.player1 with websocket := none }
         else g.player1,
       player2 :=
         if g.player2.websocket = some self then
           { g.player2 with websocket := none }
         else g.player2 }, [])
  else
    (g, [])

/-! ### WebSocket move-frame dispatch (server.py, on_ws_message) -/

/-- Result of the `"move"` branch of the dispatcher: either the extracted
move string is handed to `handle_ws_move`, or the client gets an
`"Invalid move format"` error reply. -/
inductive MoveDispatch where
  | toHandler (m : String)
  | formatError
deriving DecidableEq

/-- The `"move"` branch of `on_ws_message`.  The frame's JSON object is an
association list of string fields; `validInput` abstracts the out-of-scope
sanitizer `valid_input`.  The code reads `data.get("move")` only: a missing
key, an empty string, a length outside `1..20`, or a sanitizer rejection
each yield the format error. -/
def dispatchMoveFrame (validInput : String → Bool)
    (data : List (String × String)) : MoveDispatch :=
  match data.lookup "move" with
  | none => .formatError
  | some s =>
    if s = "" then .formatError
    else if ¬ (1 ≤ s.length ∧ s.length ≤ 20) then .formatError
    else if ¬ (validInput s = true) then .formatError
    else .toHandler s

/-! ### Matchmaking queue (game/matchmaking.py, server.py) -/

/-- Matchmaking state: the multi-producer `MATCHMAKING_QUEUE` (in FIFO
order) and the loop's internal `waiting_players` list, whose entries carry
the `timestamp` stamped by `_poll_queue`. -/
structure MMState where
  queue : List Candidate
  waiting : List (Candidate × Int)
deriving DecidableEq

/-- `_poll_queue`: dequeue at most one candidate; drop it when its
`user_id` is already waiting, otherwise stamp it and append it to the
waiting list. -/
def pollQueue (now : Int) (st : MMState) : MMState :=
  match st.queue with
  | [] => st
  | p :: rest =>
    if (st.waiting.map (fun c => c.1.user_id)).contains p.user_id then
      { st with queue := rest }
    else
      { queue := rest, waiting := st.waiting ++ [(p, now)] }

/-- `handle_cancel_search`'s queue rebuild: drain `MATCHMAKING_QUEUE`,
keep every entry whose `session_id` differs, and report whether anything
was removed (`removed`); the loop's internal waiting list is not touched. -/
def cancelSearch (sid : String) (st : MMState) : Bool × MMState :=
  (st.queue.any (fun c => c.session_id == sid),
   { st with queue := st.queue.filter (fun c => c.session_id ≠ sid) })

/-! ### Game registry transitions (server.py, game/instance_handler.py) -/

/-- The active-game registry `ACTIVE_GAMES`. -/
abbrev Registry := List (String × Game)

/-- One step of the registry: game creation (`_create_game` installing
`_initialize_game_state`'s record), the follow-up `legal_moves`
initialization, socket attach on upgrade, `handle_ws_move`, the
`ACTIVE_GAMES.pop` of `handle_game_end`, `on_ws_closed`, and the sweeper of
`instance_thread_handler` (which deletes games timed out for more than
1800 s or with status `"finished"`). -/
inductive RegStep : Registry → Registry → Prop where
  | create : ∀ (reg : Registry) (gid : String) (p1 p2 : Candidate)
      (elo1 elo2 : Int) (c1 c2 : String) (now : Int),
      RegStep reg ((gid, initGameState p1 p2 elo1 elo2 c1 c2 now) :: reg)
  | legal : ∀ (reg : Registry) (gid : String) (lm : List String),
      RegStep reg
        (reg.map (fun e => if e.1 = gid then (e.1, setLegalMoves e.2 lm) else e))
  | attach : ∀ (reg : Registry) (gid : String) (self : Nat) (sid : String),
      RegStep reg
        (reg.map (fun e => if e.1 = gid then (e.1, attachWs self sid e.2) else e))
  | wsmove : ∀ (reg : Registry) (gid sid mv : String)
      (resp : EngineResponse) (now : Int),
      RegStep reg
        (reg.map (fun e =>
          if e.1 = gid then (e.1, (handleWsMove e.2 sid mv resp now).1) else e))
  | gameEnd : ∀ (reg : Registry) (gid : String),
      RegStep reg (reg.filter (fun e => !(e.1 == gid)))
  | wsclose : ∀ (reg : Registry) (gid : String) (self : Nat),
      RegStep reg
        (reg.map (fun e =>
          if e.1 = gid then (e.1, (onWsClosed self e.2).1) else e))
  | sweep : ∀ (reg : Registry) (now : Int),
      RegStep reg
        (reg.filter (fun e =>
          !(decide (now - e.2.last_move_at > 1800) || e.2.status == "finished")))

/-- The games the sweeper's `status == "finished"` branch would select. -/
def sweeperFinishedMatches (reg : Registry) : Registry :=
  reg.filter (fun e => e.2.status == "finished")

/-! ### Concrete records used to exercise the embedded operations -/

/-- A waiting player, as enqueued by `handle_search`. -/
def aliceCand : Candidate := ⟨1, "alice", "sa"⟩

/-- A second waiting player. -/
def bobCand : Candidate := ⟨2, "bob", "sb"⟩

/-- An in-flight game between the two candidates, both sockets attached. -/
def demoGame : Game :=
  { player1 :=
      { user_id := 1, username := "alice", session_id := "sa",
        color := "white", websocket := some 11, elo := 500 },
    player2 :=
      { user_id := 2, username := "bob", session_id := "sb",
        color := "black", websocket := some 22, elo := 500 },
    fen := startFen, moves := [], current_turn := "white",
    legal_moves := ["e2e4"], status := "ongoing", winner := none,
    created_at := 0, last_move_at := 0 }

/-- An engine reply accepting a move without ending the game. -/
def demoResp : EngineResponse :=
  { message := some "valid", fen := some "fen2",
    possible_moves := some ["a7a6"], winner := none, error := none }

/-- A session-manager state holding one session created at time 0 with a
10-second timeout. -/
def c3Start : SMState := createSessionSM "s" 1 "alice" "ip" 0 ⟨[], [], 10⟩

/-! ## Helper lemmas -/

/-- Appending one move leaves it as the last element. -/
theorem getLast?_append_one {α : Type} (l : List α) (a : α) :
    (l ++ [a]).getLast? = some a := by
  simp [List.getLast?_concat]

/-- Filtering out every entry with key `sid` makes lookups of `sid` miss. -/
theorem lookup_filter_self_none {β : Type} (sid : String) (l : List (String × β)) :
    (l.filter (fun p => !(p.1 == sid))).lookup sid = none := by
  induction l with
  | nil => rfl
  | cons a l ih =>
    by_cases h : a.1 = sid
    · have hb : (a.1 == sid) = true := by simpa using h
      simpa [List.filter_cons, hb] using ih
    · have hb : (a.1 == sid) = false := by simpa using h
      have hb2 : (sid == a.1) = false := by simpa using (Ne.symm h)
      simp [List.filter_cons, hb, List.lookup, hb2, ih]

/-- A successful lookup implies `any` finds the key. -/
theorem lookup_any_eq_true {β : Type} (l : List (String × β)) (sid : String) (v : β)
    (h : l.lookup sid = some v) : l.any (fun p => p.1 == sid) = true := by
  induction l with
  | nil => simp [List.lookup] at h
  | cons a l ih =>
    rw [List.lookup] at h
    cases hk : (sid == a.1) with
    | true =>
      have ha : a.1 = sid := (eq_of_beq hk).symm
      simp [List.any_cons, ha]
    | false =>
      rw [hk] at h
      simp only [List.any_cons, Bool.or_eq_true]
      exact Or.inr (ih h)

/-- Specification of the left-to-right strict-minimum scan: the result is
the accumulator or a list element, its key is minimal, a tie with the
accumulator returns the accumulator, and every tie has an id at least the
result's id, provided the ids ascend along the scan. -/
theorem pyFold_spec {α : Type} (f g : α → Nat) (xs : List α) (acc : α)
    (hlt : ∀ y ∈ xs, g acc < g y)
    (hpair : xs.Pairwise (fun a b => g a < g b)) :
    (pyFold f acc xs = acc ∨ pyFold f acc xs ∈ xs) ∧
    f (pyFold f acc xs) ≤ f acc ∧
    (∀ y ∈ xs, f (pyFold f acc xs) ≤ f y) ∧
    (f (pyFold f acc xs) = f acc → pyFold f acc xs = acc) ∧
    (∀ y ∈ xs, f y = f (pyFold f acc xs) → g (pyFold f acc xs) ≤ g y) := by
  induction xs generalizing acc with
  | nil =>
    exact ⟨Or.inl rfl, le_refl _, by simp, fun _ => rfl, by simp⟩
  | cons z rest ih =>
    have hz : g acc < g z := hlt z (List.mem_cons_self z rest)
    have hrest_lt : ∀ y ∈ rest, g z < g y :=
      fun y hy => (List.pairwise_cons.mp hpair).1 y hy
    have hpair' := (List.pairwise_cons.mp hpair).2
    have hfold : pyFold f acc (z :: rest) =
        pyFold f (if f z < f acc then z else acc) rest := rfl
    by_cases hcase : f z < f acc
    · rw [hfold, if_pos hcase]
      obtain ⟨hmem, hle, hall, htie, hties⟩ := ih z hrest_lt hpair'
      refine ⟨?_, ?_, ?_, ?_, ?_⟩
      · rcases hmem with h | h
        · exact Or.inr (by rw [h]; exact List.mem_cons_self z rest)
        · exact Or.inr (List.mem_cons_of_mem z h)
      · exact le_trans hle (le_of_lt hcase)
      · intro y hy
        rcases List.mem_cons.mp hy with h | h
        · rw [h]; exact hle
        · exact hall y h
      · intro hEq
        exact absurd hEq (ne_of_lt (lt_of_le_of_lt hle hcase))
      · intro y hy hEq
        rcases List.mem_cons.mp hy with h | h
        · subst h
          rw [htie hEq.symm]
        · exact hties y h hEq
    · have hle' : f acc ≤ f z := le_of_not_lt hcase
      rw [hfold, if_neg hcase]
      obtain ⟨hmem, hle, hall, htie, hties⟩ :=
        ih acc (fun y hy => hlt y (List.mem_cons_of_mem z hy)) hpair'
      refine ⟨?_, ?_, ?_, ?_, ?_⟩
      · rcases hmem with h | h
        · exact Or.inl h
        · exact Or.inr (List.mem_cons_of_mem z h)
      · exact hle
      · intro y hy
        rcases List.mem_cons.mp hy with h | h
        · rw [h]; exact le_trans hle hle'
        · exact hall y h
      · exact htie
      · intro y hy hEq
        rcases List.mem_cons.mp hy with h | h
        · subst h
          have h1 : f (pyFold f acc rest) = f acc :=
            le_antisymm hle (hEq ▸ hle')
          rw [htie h1]
          exact le_of_lt hz
        · exact hties y h hEq

/-- Status is untouched by the legal-move refresh. -/
theorem setLegalMoves_status (g : Game) (lm : List String) :
    (setLegalMoves g lm).status = g.status := rfl

/-- Status is untouched by attaching a socket. -/
theorem attachWs_status (self : Nat) (sid : String) (g : Game) :
    (attachWs self sid g).status = g.status := by
  unfold attachWs
  split_ifs <;> rfl

/-- Status is untouched by `on_ws_closed`. -/
theorem onWsClosed_status (self : Nat) (g : Game) :
    ((onWsClosed self g).1).status = g.status := by
  unfold onWsClosed
  split_ifs <;> rfl

/-- Status is untouched by `handle_ws_move` on every branch. -/
theorem handleWsMove_status (g : Game) (sid mv : String) (resp : EngineResponse)
    (now : Int) : ((handleWsMove g sid mv resp now).1).status = g.status := by
  obtain ⟨msg, fen, pm, win, err⟩ := resp
  cases fen <;> cases win <;>
    simp only [handleWsMove] <;> split_ifs <;> rfl

/-- The accepted-move branch of `handle_ws_move` computed out: with the turn
check passing, a nonempty move, an engine `"valid"` reply carrying a `fen`,
the record is updated in place and the outcome tag does not change it. -/
theorem handleWsMove_valid_fst (g : Game) (sid mv : String) (resp : EngineResponse)
    (now : Int) (f : String)
    (hturn : playerColorOf g sid = g.current_turn)
    (hmv : mv ≠ "") (hvalid : resp.message = some "valid")
    (hfen : resp.fen = some f) :
    (handleWsMove g sid mv resp now).1 =
      { g with
        fen := f,
        moves := g.moves ++ [mv],
        legal_moves := resp.possible_moves.getD [],
        current_turn := if g.current_turn = "white" then "black" else "white",
        last_move_at := now } := by
  unfold handleWsMove
  rw [hturn, if_neg (fun h => h rfl), if_neg hmv, if_pos hvalid, hfen]
  cases hw : resp.winner with
  | none => rfl
  | some w => by_cases hww : w = "" <;> simp [hww]

/-! ## Claims -/

/-- C1: for a move submitted by the player whose color equals
`current_turn`, when the engine replies `"valid"` (with a new `fen` and a
`possible_moves` list), `handle_ws_move` leaves the game with the turn
flipped between white and black, `moves` exactly one element longer ending
in the submitted move, and `fen` and `legal_moves` replaced by the engine's
values. -/
theorem C1_accepted_move_updates (g : Game) (sid mv : String)
    (resp : EngineResponse) (now : Int) (f : String) (lm : List String)
    (hturn : playerColorOf g sid = g.current_turn)
    (hcolor : g.current_turn = "white" ∨ g.current_turn = "black")
    (hmv : mv ≠ "") (hvalid : resp.message = some "valid")
    (hfen : resp.fen = some f) (hlm : resp.possible_moves = some lm) :
    (handleWsMove g sid mv resp now).1.current_turn ≠ g.current_turn ∧
    ((g.current_turn = "white" →
        (handleWsMove g sid mv resp now).1.current_turn = "black") ∧
      (g.current_turn = "black" →
        (handleWsMove g sid mv resp now).1.current_turn = "white")) ∧
    (handleWsMove g sid mv resp now).1.moves = g.moves ++ [mv] ∧
    (handleWsMove g sid mv resp now).1.moves.length = g.moves.length + 1 ∧
    (handleWsMove g sid mv resp now).1.moves.getLast? = some mv ∧
    (handleWsMove g sid mv resp now).1.fen = f ∧
    (handleWsMove g sid mv resp now).1.legal_moves = lm ∧
    (handleWsMove g sid mv resp now).1.last_move_at = now := by
  have hbody := handleWsMove_valid_fst g sid mv resp now f hturn hmv hvalid hfen
  rw [hbody]
  refine ⟨?_, ⟨?_, ?_⟩, rfl, by simp, getLast?_append_one _ _, rfl, by simp [hlm], rfl⟩
  · rcases hcolor with h | h
    · rw [h]; exact (by decide : ("black" : String) ≠ "white")
    · rw [h]; exact (by decide : ("white" : String) ≠ "black")
  · intro h; rw [h]; exact rfl
  · intro h; rw [h]; exact rfl

/-- Witness for C1 at a concrete game and accepting engine reply. -/
theorem C1_witness :
    (playerColorOf demoGame "sa" = demoGame.current_turn) ∧
    (demoGame.current_turn = "white") ∧
    demoResp.message = some "valid" ∧
    (handleWsMove demoGame "sa" "e2e4" demoResp 7).1.current_turn ≠
      demoGame.current_turn ∧
    (handleWsMove demoGame "sa" "e2e4" demoResp 7).1.moves =
      demoGame.moves ++ ["e2e4"] ∧
    (handleWsMove demoGame "sa" "e2e4" demoResp 7).1.moves.getLast? =
      some "e2e4" ∧
    (handleWsMove demoGame "sa" "e2e4" demoResp 7).1.fen = "fen2" ∧
    (handleWsMove demoGame "sa" "e2e4" demoResp 7).1.legal_moves = ["a7a6"] := by
  have h := C1_accepted_move_updates demoGame "sa" "e2e4" demoResp 7 "fen2" ["a7a6"]
    (by decide) (Or.inl (by decide)) (by decide) (by decide) (by decide) (by decide)
  exact ⟨by decide, by decide, by decide, h.1, h.2.2.1, h.2.2.2.2.1,
    h.2.2.2.2.2.1, h.2.2.2.2.2.2.1⟩

/-- C2 (amended): for a decisive settlement (score 1) the delta the code
applies is `int(32 * (1 - E))`, i.e. the floor of the nonnegative real
quantity — truncation, not rounding to the nearest integer. -/
theorem C2_elo_delta_win_floor (w l : ℤ) :
    elo_delta w l 1 32 = Int.floor ((32:ℝ) * (1 - expectedScore w l)) := by
  have hpow : (0:ℝ) < (10:ℝ) ^ ((((l:ℝ)) - ((w:ℝ))) / 400) :=
    Real.rpow_pos_of_pos (by norm_num) _
  have hden : (0:ℝ) < 1 + (10:ℝ) ^ ((((l:ℝ)) - ((w:ℝ))) / 400) := by linarith
  have hE : expectedScore w l < 1 := by
    unfold expectedScore
    rw [div_lt_one hden]
    linarith
  have hnn : (0:ℝ) ≤ 32 * (1 - expectedScore w l) := by nlinarith
  unfold elo_delta pyInt
  rw [if_pos hnn]

/-- C2 counterexample: at ratings 500 (winner) versus 660 (loser) the real
delta `32 * (1 - E)` lies strictly between 22.5 and 23, so the nearest
integer is 23 while the code's `int()` truncation yields 22. -/
theorem C2_counterexample :
    elo_delta 500 660 1 32 = 22 ∧
    round ((32:ℝ) * (1 - expectedScore 500 660)) = 23 ∧
    elo_delta 500 660 1 32 ≠ round ((32:ℝ) * (1 - expectedScore 500 660)) := by
  have hxe : expectedScore 500 660 = 1 / (1 + (10:ℝ) ^ ((2:ℝ)/5)) := by
    unfold expectedScore
    norm_num
  have hxpos : (0:ℝ) < (10:ℝ) ^ ((2:ℝ)/5) :=
    Real.rpow_pos_of_pos (by norm_num) _
  have hx5 : ((10:ℝ) ^ ((2:ℝ)/5)) ^ (5:ℕ) = 100 := by
    rw [← Real.rpow_natCast ((10:ℝ) ^ ((2:ℝ)/5)) 5,
        ← Real.rpow_mul (by norm_num : (0:ℝ) ≤ 10)]
    norm_num
  have hlow : (45/19 : ℝ) < (10:ℝ) ^ ((2:ℝ)/5) := by
    have h5 : (45/19:ℝ) ^ (5:ℕ) < ((10:ℝ) ^ ((2:ℝ)/5)) ^ (5:ℕ) := by
      rw [hx5]; norm_num
    exact lt_of_pow_lt_pow_left₀ 5 (le_of_lt hxpos) h5
  have hhigh : (10:ℝ) ^ ((2:ℝ)/5) < (23/9 : ℝ) := by
    have h5 : ((10:ℝ) ^ ((2:ℝ)/5)) ^ (5:ℕ) < (23/9:ℝ) ^ (5:ℕ) := by
      rw [hx5]; norm_num
    exact lt_of_pow_lt_pow_left₀ 5 (by norm_num) h5
  have hden : (0:ℝ) < 1 + (10:ℝ) ^ ((2:ℝ)/5) := by linarith
  have hE1 : expectedScore 500 660 < 19/64 := by
    rw [hxe, div_lt_div_iff₀ hden (by norm_num : (0:ℝ) < 64)]
    linarith
  have hE2 : (9/32:ℝ) < expectedScore 500 660 := by
    rw [hxe, div_lt_div_iff₀ (by norm_num : (0:ℝ) < 32) hden]
    linarith
  have hd1 : (45/2 : ℝ) < 32 * (1 - expectedScore 500 660) := by linarith
  have hd2 : 32 * (1 - expectedScore 500 660) < 23 := by linarith
  have hfloor : Int.floor ((32:ℝ) * (1 - expectedScore 500 660)) = 22 := by
    rw [Int.floor_eq_iff]
    constructor
    · push_cast; linarith
    · push_cast; linarith
  have hround : round ((32:ℝ) * (1 - expectedScore 500 660)) = 23 := by
    rw [round_eq, Int.floor_eq_iff]
    constructor
    · push_cast; linarith
    · push_cast; linarith
  have hnn : (0:ℝ) ≤ 32 * (1 - expectedScore 500 660) := by linarith
  refine ⟨?_, hround, ?_⟩
  · unfold elo_delta pyInt
    rw [if_pos hnn, hfloor]
  · unfold elo_delta pyInt
    rw [if_pos hnn, hfloor, hround]
    decide

/-- C3 (amended): when the memo cache holds no entry for the session id,
`get_session` returns a record iff the stored row exists and satisfies
`now - last_active ≤ session_timeout`; on an expired hit it returns `none`,
deletes the row from the store in the same call, and every subsequent
lookup also misses.  (A cache hit can bypass this check — see the
counterexample.) -/
theorem C3_get_session_uncached_spec (st : SMState) (sid : String) (now : Int)
    (hc : st.cache.lookup sid = none) :
    (((getSessionCached now sid st).1).isSome = true ↔
      ∃ row, st.store.lookup sid = some row ∧
        now - row.last_active ≤ st.timeout) ∧
    (∀ row, st.store.lookup sid = some row →
      now - row.last_active > st.timeout →
      (getSessionCached now sid st).1 = none ∧
      ((getSessionCached now sid st).2).store.lookup sid = none ∧
      (∀ now', (getSessionCached now' sid
        ((getSessionCached now sid st).2)).1 = none)) := by
  have hmain : getSessionCached now sid st =
      ((getSessionImpl now sid st).1,
       { (getSessionImpl now sid st).2 with
         cache := (sid, (getSessionImpl now sid st).1) ::
           ((getSessionImpl now sid st).2).cache }) := by
    unfold getSessionCached
    rw [hc]
  cases hrow : st.store.lookup sid with
  | none =>
    have himpl : getSessionImpl now sid st = (none, st) := by
      simp [getSessionImpl, hrow]
    constructor
    · rw [hmain, himpl]
      simp [hrow]
    · intro row hr
      exact absurd hr (by simp)
  | some row =>
    by_cases hexp : now - row.last_active > st.timeout
    · have hfound : st.store.any (fun p => p.1 == sid) = true :=
        lookup_any_eq_true st.store sid row hrow
      have hdel : (deleteSessionSM sid st).2 =
          { st with
            store := st.store.filter (fun p => !(p.1 == sid)),
            cache := [] } := by
        simp [deleteSessionSM, hfound]
      have himpl : getSessionImpl now sid st = (none, (deleteSessionSM sid st).2) := by
        simp [getSessionImpl, hrow, hexp]
      constructor
      · rw [hmain, himpl]
        constructor
        · intro hfalse
          exact absurd hfalse (by simp)
        · rintro ⟨row', hr', hle⟩
          injection hr' with he
          subst he
          exact absurd hle (not_le.mpr hexp)
      · intro row' hr' hexp'
        refine ⟨?_, ?_, ?_⟩
        · rw [hmain, himpl]
        · rw [hmain, himpl, hdel]
          simpa using lookup_filter_self_none sid st.store
        · intro now'
          rw [hmain, himpl, hdel]
          simp [getSessionCached, List.lookup]
    · have himpl : getSessionImpl now sid st =
          (some ⟨row.user_id, row.username, row.ip, row.last_active⟩, st) := by
        simp [getSessionImpl, hrow, hexp]
      constructor
      · rw [hmain, himpl]
        constructor
        · intro _
          exact ⟨row, rfl, not_lt.mp hexp⟩
        · intro _
          rfl
      · intro row' hr' hexp'
        injection hr' with he
        subst he
        exact absurd hexp' hexp

/-- C3 counterexample: a session created at time 0 with timeout 10 is
fetched at time 5 (memoized) and fetched again at time 20: although
`20 - 0 > 10`, the memo cache returns the stale record instead of expiring
and deleting the session. -/
theorem C3_counterexample :
    ((getSessionCached 20 "s" ((getSessionCached 5 "s" c3Start).2)).1 =
      some ⟨1, "alice", "ip", 0⟩) ∧
    ((20:Int) - 0 > 10) := by
  constructor
  · decide
  · decide

/-- Witness for C3 at a concrete expired session with an empty cache. -/
theorem C3_witness :
    ((getSessionCached 20 "s"
        ⟨[("s", ⟨1, "alice", "ip", 0, 0⟩)], [], 10⟩).1 = none) ∧
    ((getSessionCached 20 "s"
        ⟨[("s", ⟨1, "alice", "ip", 0, 0⟩)], [], 10⟩).2.store.lookup "s" =
      none) := by
  have h := (C3_get_session_uncached_spec
      ⟨[("s", ⟨1, "alice", "ip", 0, 0⟩)], [], 10⟩ "s" 20 rfl).2
    ⟨1, "alice", "ip", 0, 0⟩ (by decide) (by decide)
  exact ⟨h.1, h.2.1⟩

/-- C4: `submit_task` enqueues on the instance with the minimum queue size
at selection time; when several tie for the minimum, the one earliest in
the pool map's iteration order — the smallest instance id — receives the
task. -/
theorem C4_submit_task_min_queue (l : List (Nat × Nat)) (hne : l ≠ [])
    (hord : l.Pairwise (fun a b => a.1 < b.1)) :
    ∃ b, pyMinBy (fun p => p.2) l = some b ∧ submitTaskTarget l = some b.1 ∧
      b ∈ l ∧ (∀ p ∈ l, b.2 ≤ p.2) ∧ (∀ p ∈ l, p.2 = b.2 → b.1 ≤ p.1) := by
  cases l with
  | nil => exact absurd rfl hne
  | cons x xs =>
    obtain ⟨h1, h2⟩ := List.pairwise_cons.mp hord
    obtain ⟨hmem, hle, hall, htie, hties⟩ :=
      pyFold_spec (fun p => p.2) (fun p => p.1) xs x h1 h2
    refine ⟨pyFold (fun p => p.2) x xs, rfl, rfl, ?_, ?_, ?_⟩
    · rcases hmem with h | h
      · rw [h]; exact List.mem_cons_self x xs
      · exact List.mem_cons_of_mem x h
    · intro p hp
      rcases List.mem_cons.mp hp with h | h
      · rw [h]; exact hle
      · exact hall p h
    · intro p hp hEq
      rcases List.mem_cons.mp hp with h | h
      · subst h
        rw [htie hEq.symm]
      · exact hties p h hEq

/-- Witness for C4: a pool of three instances whose queues are 3, 1, 1
tasks deep; the tie between ids 1 and 2 goes to id 1. -/
theorem C4_witness :
    ([((0:Nat), (3:Nat)), (1, 1), (2, 1)] ≠ ([] : List (Nat × Nat))) ∧
    ∃ b, pyMinBy (fun p => p.2) [((0:Nat), (3:Nat)), (1, 1), (2, 1)] = some b ∧
      submitTaskTarget [((0:Nat), (3:Nat)), (1, 1), (2, 1)] = some b.1 ∧
      b ∈ [((0:Nat), (3:Nat)), (1, 1), (2, 1)] ∧
      (∀ p ∈ [((0:Nat), (3:Nat)), (1, 1), (2, 1)], b.2 ≤ p.2) ∧
      (∀ p ∈ [((0:Nat), (3:Nat)), (1, 1), (2, 1)], p.2 = b.2 → b.1 ≤ p.1) :=
  ⟨by decide, C4_submit_task_min_queue _ (by decide) (by decide)⟩

/-- C5: while `should_shutdown()` is false, along every sequence of spawn,
auto-scale and close steps from a count within bounds, the live-instance
count never exceeds `max_instances` and never drops below
`min_instances`: every spawn path re-checks the upper bound under the pool
lock, and the only reachable instance removal is `auto_scale`'s
scale-down, guarded by `count > min_instances`. -/
theorem C5_pool_bounds (minI maxI m n : Nat)
    (h : Relation.ReflTransGen (PoolStep minI maxI) m n)
    (hmin : minI ≤ m) (hmax : m ≤ maxI) : minI ≤ n ∧ n ≤ maxI := by
  induction h with
  | refl => exact ⟨hmin, hmax⟩
  | tail _ step ih => cases step <;> omega

/-- Witness for C5 on a concrete trace from the post-init count of a
`min_instances = 1`, `max_instances = 10` pool. -/
theorem C5_witness :
    Relation.ReflTransGen (PoolStep 1 10) 1 2 ∧ (1:Nat) ≤ 1 ∧ (1:Nat) ≤ 10 ∧
    ((1:Nat) ≤ 2 ∧ (2:Nat) ≤ 10) := by
  have t : Relation.ReflTransGen (PoolStep 1 10) 1 2 :=
    Relation.ReflTransGen.single (PoolStep.spawn_ok 1 (by norm_num))
  exact ⟨t, le_refl 1, by norm_num,
    C5_pool_bounds 1 10 1 2 t (le_refl 1) (by norm_num)⟩

/-- C6 (amended): after any nonempty sequence of `signal_error` calls both
latches are set, and `get_error_message` returns the message of the LAST
call — each call overwrites the stored message. -/
theorem C6_signal_error_records_last (s : SState) (msgs : List String)
    (m : String) (h : msgs.getLast? = some m) :
    (applySignalErrors s msgs).error_flag = true ∧
    (applySignalErrors s msgs).shutdown_flag = true ∧
    getErrorMessage (applySignalErrors s msgs) = some m := by
  induction msgs generalizing s with
  | nil => simp [List.getLast?] at h
  | cons a rest ih =>
    cases rest with
    | nil =>
      simp [List.getLast?] at h
      subst h
      exact ⟨rfl, rfl, rfl⟩
    | cons b rest' =>
      have h' : (b :: rest').getLast? = some m := by
        rw [List.getLast?_cons_cons] at h
        exact h
      exact ih (signalError a s) h'

/-- C6 counterexample: two successive `signal_error` calls leave the SECOND
message in the slot, not the first. -/
theorem C6_counterexample :
    getErrorMessage
        (signalError "disk failure" (signalError "db init failed" SState.init)) =
      some "disk failure" ∧
    getErrorMessage
        (signalError "disk failure" (signalError "db init failed" SState.init)) ≠
      some "db init failed" ∧
    (signalError "disk failure"
        (signalError "db init failed" SState.init)).error_flag = true ∧
    (signalError "disk failure"
        (signalError "db init failed" SState.init)).shutdown_flag = true := by
  refine ⟨rfl, ?_, rfl, rfl⟩
  decide

/-- Witness for C6 on a concrete two-call sequence. -/
theorem C6_witness :
    ((["db init failed", "disk failure"] : List String).getLast? =
      some "disk failure") ∧
    (applySignalErrors SState.init
        ["db init failed", "disk failure"]).error_flag = true ∧
    (applySignalErrors SState.init
        ["db init failed", "disk failure"]).shutdown_flag = true ∧
    getErrorMessage (applySignalErrors SState.init
        ["db init failed", "disk failure"]) = some "disk failure" := by
  have h : (["db init failed", "disk failure"] : List String).getLast? =
      some "disk failure" := rfl
  have h2 := C6_signal_error_records_last SState.init _ _ h
  exact ⟨h, h2.1, h2.2.1, h2.2.2⟩

/-- C7 (amended): when a player's socket closes on an ongoing game,
`on_ws_closed` clears exactly that player's websocket slot and leaves the
rest of the record alone; it sends no message at all — in particular no
`opponent_disconnected` to the remaining peer. -/
theorem C7_ws_close_clears_slot (self : Nat) (g : Game)
    (_h1 : g.status = "ongoing")
    (h2 : g.player1.websocket = some self)
    (h3 : g.player2.websocket ≠ some self) :
    (onWsClosed self g).1.player1.websocket = none ∧
    (onWsClosed self g).1.player2 = g.player2 ∧
    (onWsClosed self g).1.status = g.status ∧
    (onWsClosed self g).2 = [] := by
  unfold onWsClosed
  rw [if_pos (Or.inl h2), if_pos h2, if_neg h3]
  exact ⟨rfl, rfl, rfl, rfl⟩

/-- C7 counterexample: on a concrete ongoing game with both sockets
attached, closing player 1's socket clears the slot but the handler's
output contains no `opponent_disconnected` message for the peer. -/
theorem C7_counterexample :
    demoGame.status = "ongoing" ∧
    demoGame.player2.websocket = some 22 ∧
    (onWsClosed 11 demoGame).1.player1.websocket = none ∧
    (onWsClosed 11 demoGame).2 = [] ∧
    WsOut.opponentDisconnected ∉ (onWsClosed 11 demoGame).2 := by
  decide

/-- Witness for C7 at the concrete game. -/
theorem C7_witness :
    demoGame.status = "ongoing" ∧
    demoGame.player1.websocket = some 11 ∧
    demoGame.player2.websocket ≠ some 11 ∧
    (onWsClosed 11 demoGame).1.player1.websocket = none ∧
    (onWsClosed 11 demoGame).1.player2 = demoGame.player2 ∧
    (onWsClosed 11 demoGame).1.status = demoGame.status ∧
    (onWsClosed 11 demoGame).2 = [] := by
  have h := C7_ws_close_clears_slot 11 demoGame rfl rfl (by decide)
  exact ⟨rfl, rfl, by decide, h.1, h.2.1, h.2.2.1, h.2.2.2⟩

/-- C8 (amended): the dispatcher's `"move"` branch reads only the `"move"`
field; a frame without that key — including the `from`/`to` shape — is
answered with the format error, while a well-formed `"move"` field is
passed to the move handler unchanged. -/
theorem C8_dispatch_move_shape (v : String → Bool)
    (data : List (String × String)) :
    (data.lookup "move" = none →
      dispatchMoveFrame v data = MoveDispatch.formatError) ∧
    (∀ s, data.lookup "move" = some s → s ≠ "" → 1 ≤ s.length →
      s.length ≤ 20 → v s = true →
      dispatchMoveFrame v data = MoveDispatch.toHandler s) := by
  constructor
  · intro h
    simp [dispatchMoveFrame, h]
  · intro s hs hne hl1 hl2 hv
    simp [dispatchMoveFrame, hs, hne, hl1, hl2, hv]

/-- C8 counterexample: the `from`/`to` payload shape is not accepted — the
dispatcher answers it with the format error instead of extracting `e2e4`
and calling the move handler. -/
theorem C8_counterexample :
    dispatchMoveFrame (fun _ => true)
      [("type", "move"), ("from", "e2"), ("to", "e4")] =
      MoveDispatch.formatError ∧
    dispatchMoveFrame (fun _ => true)
      [("type", "move"), ("from", "e2"), ("to", "e4")] ≠
      MoveDispatch.toHandler "e2e4" := by
  decide

/-- Witness for C8 on both concrete payload shapes. -/
theorem C8_witness :
    (([("type", "move"), ("from", "e2"), ("to", "e4")] :
        List (String × String)).lookup "move" = none) ∧
    dispatchMoveFrame (fun _ => true)
      [("type", "move"), ("from", "e2"), ("to", "e4")] =
      MoveDispatch.formatError ∧
    dispatchMoveFrame (fun _ => true) [("type", "move"), ("move", "e2e4")] =
      MoveDispatch.toHandler "e2e4" := by
  refine ⟨by decide, (C8_dispatch_move_shape _ _).1 (by decide),
    (C8_dispatch_move_shape _ _).2 "e2e4" (by decide) (by decide) (by decide)
      (by decide) rfl⟩

/-- C9 (amended): `handle_cancel_search` removes every entry with the
session id from the pending matchmaking queue (preserving the rest) and
reports success iff one was there; the loop's internal waiting list is not
touched, so a candidate already polled into it stays pairable. -/
theorem C9_cancel_search_spec (sid : String) (st : MMState) :
    (∀ c ∈ (cancelSearch sid st).2.queue, c.session_id ≠ sid) ∧
    (∀ c ∈ st.queue, c.session_id ≠ sid → c ∈ (cancelSearch sid st).2.queue) ∧
    ((cancelSearch sid st).1 = true ↔ ∃ c ∈ st.queue, c.session_id = sid) ∧
    (cancelSearch sid st).2.waiting = st.waiting := by
  refine ⟨?_, ?_, ?_, rfl⟩
  · intro c hc
    have h := List.mem_filter.mp hc
    simpa using h.2
  · intro c hc hne
    exact List.mem_filter.mpr ⟨hc, by simpa using hne⟩
  · simp [cancelSearch, List.any_eq_true]

/-- C9 counterexample: once `_poll_queue` has moved the candidate into the
loop's waiting list, `handle_cancel_search` finds nothing in the queue —
it reports failure and the candidate remains in the waiting list, still
pairable. -/
theorem C9_counterexample :
    (pollQueue 5 ⟨[aliceCand], []⟩).waiting = [(aliceCand, 5)] ∧
    (cancelSearch "sa" (pollQueue 5 ⟨[aliceCand], []⟩)).1 = false ∧
    (aliceCand, 5) ∈ (cancelSearch "sa" (pollQueue 5 ⟨[aliceCand], []⟩)).2.waiting := by
  decide

/-- C10: every game in the active registry has status `"ongoing"`: games
are created that way, no transition writes `"finished"`, terminal
settlement removes the record instead, so the sweeper's
`status == "finished"` branch never matches a registered game. -/
theorem C10_registry_all_ongoing (reg : Registry)
    (h : Relation.ReflTransGen RegStep [] reg) :
    (∀ e ∈ reg, e.2.status = "ongoing") ∧ sweeperFinishedMatches reg = [] := by
  have main : ∀ e ∈ reg, e.2.status = "ongoing" := by
    induction h with
    | refl =>
      intro e he
      exact absurd he (List.not_mem_nil e)
    | tail _ step ih =>
      intro e he
      cases step with
      | create gid p1 p2 elo1 elo2 c1 c2 nw =>
        rcases List.mem_cons.mp he with hh | hh
        · rw [hh]; rfl
        · exact ih e hh
      | legal gid lm =>
        rcases List.mem_map.mp he with ⟨a, ha, hEq⟩
        subst hEq
        by_cases hk : a.1 = gid
        · rw [if_pos hk]
          show (setLegalMoves a.2 lm).status = "ongoing"
          rw [setLegalMoves_status]
          exact ih a ha
        · rw [if_neg hk]
          exact ih a ha
      | attach gid self sid =>
        rcases List.mem_map.mp he with ⟨a, ha, hEq⟩
        subst hEq
        by_cases hk : a.1 = gid
        · rw [if_pos hk]
          show (attachWs self sid a.2).status = "ongoing"
          rw [attachWs_status]
          exact ih a ha
        · rw [if_neg hk]
          exact ih a ha
      | wsmove gid sid mv resp nw =>
        rcases List.mem_map.mp he with ⟨a, ha, hEq⟩
        subst hEq
        by_cases hk : a.1 = gid
        · rw [if_pos hk]
          show ((handleWsMove a.2 sid mv resp nw).1).status = "ongoing"
          rw [handleWsMove_status]
          exact ih a ha
        · rw [if_neg hk]
          exact ih a ha
      | gameEnd gid =>
        exact ih e (List.mem_of_mem_filter he)
      | wsclose gid self =>
        rcases List.mem_map.mp he with ⟨a, ha, hEq⟩
        subst hEq
        by_cases hk : a.1 = gid
        · rw [if_pos hk]
          show ((onWsClosed self a.2).1).status = "ongoing"
          rw [onWsClosed_status]
          exact ih a ha
        · rw [if_neg hk]
          exact ih a ha
      | sweep nw =>
        exact ih e (List.mem_of_mem_filter he)
  refine ⟨main, ?_⟩
  unfold sweeperFinishedMatches
  rw [List.filter_eq_nil_iff]
  intro e he
  simp [main e he]

/-- Witness for C10 on the registry reached by one game creation. -/
theorem C10_witness :
    (∀ e ∈ [("game_0_1000",
        initGameState aliceCand bobCand 500 500 "white" "black" 0)],
      (e : String × Game).2.status = "ongoing") ∧
    sweeperFinishedMatches
      [("game_0_1000",
        initGameState aliceCand bobCand 500 500 "white" "black" 0)] = [] :=
  C10_registry_all_ongoing _
    (Relation.ReflTransGen.single
      (RegStep.create [] "game_0_1000" aliceCand bobCand 500 500 "white" "black" 0))

end ChessServer
